import Mathlib

/-!
# Verification of the buildigvm OVMF firmware parser and IGVM builder

Shallow embedding of the Rust sources `ovmf_firmware.rs`, `igvm_builder.rs`
and `vmsa.rs` of the `buildigvm` tool.  Bytes are modelled as `Nat` values
(a byte read applies `% 256`, matching the `u8` type of the buffer), machine
integer overflow checks and out-of-bounds slice accesses are modelled
explicitly: any operation that would make the Rust program panic (debug
overflow check on `-`/`+`, slice range out of range) produces the `crash`
outcome, an `Err` return produces the `err` outcome.
-/

set_option autoImplicit false

namespace BuildIgvm

/-- Outcome of a piece of Rust code: normal return, `Err` return, or a panic
(index out of range / arithmetic overflow abort). `crash` models a Rust panic. -/
inductive RustO (α : Type) where
  | ok (a : α)
  | err (e : String)
  | crash (e : String)
  deriving DecidableEq, Repr

/-- Sequencing of fallible Rust steps: `err` and `crash` propagate. -/
def bindR {α β : Type} : RustO α → (α → RustO β) → RustO β
  | .ok a, f => f a
  | .err e, _ => .err e
  | .crash e, _ => .crash e

@[simp] theorem bindR_ok {α β : Type} (a : α) (f : α → RustO β) :
    bindR (.ok a) f = f a := rfl

@[simp] theorem bindR_err {α β : Type} (e : String) (f : α → RustO β) :
    bindR (.err e) f = .err e := rfl

@[simp] theorem bindR_crash {α β : Type} (e : String) (f : α → RustO β) :
    bindR (.crash e) f = .crash e := rfl

/-- Rust slice indexing `&data[a..b]`: panics (out of range) unless
`a ≤ b ≤ data.len()`; otherwise yields the sub-slice. -/
def sliceChecked (data : List Nat) (a b : Nat) : RustO (List Nat) :=
  if a ≤ b ∧ b ≤ data.length then .ok ((data.drop a).take (b - a))
  else .crash "slice index out of range"

/-- Rust `usize` subtraction under the debug overflow check: panics when the
subtrahend exceeds the minuend. -/
def csub (a b : Nat) : RustO Nat :=
  if b ≤ a then .ok (a - b) else .crash "attempt to subtract with overflow"

/-- Rust `u32` addition under the debug overflow check. -/
def checkedAdd32 (a b : Nat) : RustO Nat :=
  if a + b < 2 ^ 32 then .ok (a + b) else .crash "attempt to add with overflow"

/-- `read_u16` of `ovmf_firmware.rs`: little-endian `u16` from the first two
bytes; the length guard returns an `Err` for a short buffer. -/
def read_u16 (data : List Nat) : RustO Nat :=
  if data.length < 2 then .err "Invalid buffer passed to read_u16"
  else .ok (data.getD 0 0 % 256 + data.getD 1 0 % 256 * 256)

/-- `read_u32` of `ovmf_firmware.rs`: little-endian `u32` from the first four
bytes; the length guard returns an `Err` for a short buffer. -/
def read_u32 (data : List Nat) : RustO Nat :=
  if data.length < 4 then .err "Invalid buffer passed to read_u32"
  else .ok (data.getD 0 0 % 256 + data.getD 1 0 % 256 * 256 +
    data.getD 2 0 % 256 * 65536 + data.getD 3 0 % 256 * 16777216)

/-- `OVMF_TABLE_FOOTER_GUID.to_bytes_le()` (96b582de-1fb2-45f7-baea-a366c55a082d). -/
def footerGuidBytes : List Nat :=
  [0xde, 0x82, 0xb5, 0x96, 0xb2, 0x1f, 0xf7, 0x45,
   0xba, 0xea, 0xa3, 0x66, 0xc5, 0x5a, 0x08, 0x2d]

/-- `OVMF_SEV_METADATA_GUID.to_bytes_le()` (dc886566-984a-4798-a75e-5585a7bf67cc). -/
def sevMetadataGuidBytes : List Nat :=
  [0x66, 0x65, 0x88, 0xdc, 0x4a, 0x98, 0x98, 0x47,
   0xa7, 0x5e, 0x55, 0x85, 0xa7, 0xbf, 0x67, 0xcc]

/-- `SEV_INFO_BLOCK_GUID.to_bytes_le()` (00f771de-1a7e-4fcb-890e-68c77e2fb44e). -/
def sevInfoGuidBytes : List Nat :=
  [0xde, 0x71, 0xf7, 0x00, 0x7e, 0x1a, 0xcb, 0x4f,
   0x89, 0x0e, 0x68, 0xc7, 0x7e, 0x2f, 0xb4, 0x4e]

/-- `OvmfFwMem`: one prevalidated memory region (`base`, `size` are `u32`). -/
structure OvmfFwMem where
  base : Nat
  size : Nat
  deriving DecidableEq, Repr

/-- `OvmfFwInfo`: parsed firmware placement and metadata. The Rust field
`prevalidated: [OvmfFwMem; 8]` is a `List` kept at length 8. -/
structure OvmfFwInfo where
  start : Nat
  size : Nat
  secrets_page : Nat
  caa_page : Nat
  cpuid_page : Nat
  reset_addr : Nat
  prevalidated_count : Nat
  prevalidated : List OvmfFwMem
  deriving DecidableEq, Repr

/-- `OvmfFwInfo::default()`: all fields zero, eight default regions. -/
def ovmfFwInfoDefault : OvmfFwInfo :=
  { start := 0, size := 0, secrets_page := 0, caa_page := 0, cpuid_page := 0,
    reset_addr := 0, prevalidated_count := 0,
    prevalidated := List.replicate 8 ⟨0, 0⟩ }

/-- `TableInfo`: result of reading one GUID table backwards. -/
structure TableInfo where
  uuid : List Nat
  data_offset : Nat
  data_length : Nat
  deriving DecidableEq, Repr

/-- `MetadataDesc`: one 12-byte SEV metadata descriptor. -/
structure MetadataDesc where
  base : Nat
  len : Nat
  metadata_type : Nat
  deriving DecidableEq, Repr

/-- `SevMetadata`: the 16-byte SEV metadata table header. The first three
fields are read then discarded by the source (underscore-prefixed). -/
structure SevMetadata where
  _sig : Nat
  _len : Nat
  _version : Nat
  num_desc : Nat
  deriving DecidableEq, Repr

/-- `MetadataDesc::try_from(&[u8])`: guarded length check, then three
little-endian `u32` reads at offsets 0, 4, 8. -/
def metadataDescTryFrom (value : List Nat) : RustO MetadataDesc :=
  if value.length < 12 then
    .err "Cannot parse OVMF metadata descriptor - invalid buffer size"
  else
    bindR (read_u32 ((value.drop 0).take 4)) fun base =>
    bindR (read_u32 ((value.drop 4).take 4)) fun len =>
    bindR (read_u32 ((value.drop 8).take 4)) fun ty =>
    .ok ⟨base, len, ty⟩

/-- `SevMetadata::try_from(&[u8])`: guarded length check, then four
little-endian `u32` reads at offsets 0, 4, 8, 12. -/
def sevMetadataTryFrom (value : List Nat) : RustO SevMetadata :=
  if value.length < 16 then
    .err "Cannot parse OVMF metadata - invalid buffer size"
  else
    bindR (read_u32 ((value.drop 0).take 4)) fun sig =>
    bindR (read_u32 ((value.drop 4).take 4)) fun len =>
    bindR (read_u32 ((value.drop 8).take 4)) fun ver =>
    bindR (read_u32 ((value.drop 12).take 4)) fun nd =>
    .ok ⟨sig, len, ver, nd⟩

/-- `read_table` of `ovmf_firmware.rs`: reading backwards from
`current_offset`, the 16-byte GUID, then the 2-byte table length; fails with
the malformed-table error when `current_offset < 18` or when the length field
exceeds `current_offset`.  The payload length computation `table_size - 18`
is an unchecked `usize` subtraction, so a length field below 18 crashes. -/
def read_table (current_offset : Nat) (data : List Nat) : RustO TableInfo :=
  if current_offset < 18 then .err "Invalid metadata table in OVMF firmware"
  else
    bindR (sliceChecked data (current_offset - 16) current_offset) fun entry_uuid =>
    bindR (sliceChecked data (current_offset - 18) (current_offset - 16)) fun szBytes =>
    bindR (read_u16 szBytes) fun table_size =>
    if current_offset < table_size then .err "Invalid metadata table in OVMF firmware"
    else
      bindR (csub table_size 18) fun data_length =>
      .ok ⟨entry_uuid, current_offset - table_size, data_length⟩

/-- The indirection at the head of `parse_sev_metadata`: the 4-byte value at
`table_data_offset` is an offset from the end of the file; the unchecked
`data.len() - value` subtraction crashes when it underflows; then the 16-byte
`SevMetadata` header is sliced and parsed.  Yields the table offset and the
descriptor count. -/
def sevMetaHeader (data : List Nat) (table_data_offset : Nat) : RustO (Nat × Nat) :=
  bindR (sliceChecked data table_data_offset (table_data_offset + 4)) fun offBytes =>
  bindR (read_u32 offBytes) fun v =>
  bindR (csub data.length v) fun offset =>
  bindR (sliceChecked data offset (offset + 16)) fun hdrBytes =>
  bindR (sevMetadataTryFrom hdrBytes) fun md =>
  .ok (offset, md.num_desc)

/-- One descriptor read of the `parse_sev_metadata` loop: the 12-byte slice at
`offset + SevMetadata::size() + i * MetadataDesc::size()`, then
`MetadataDesc::try_from`. -/
def descAt (data : List Nat) (offset i : Nat) : RustO MetadataDesc :=
  bindR (sliceChecked data (offset + 16 + i * 12) (offset + 16 + i * 12 + 12))
    metadataDescTryFrom

/-- The `match metadata_desc.metadata_type` arms of `parse_sev_metadata`:
type 1 appends to the bounded prevalidated list (error when the count has
reached the array length 8), types 2/3/4 set the secrets, CPUID and
calling-area page addresses, anything else is ignored. -/
def applyDesc (d : MetadataDesc) (fw : OvmfFwInfo) : OvmfFwInfo × RustO Unit :=
  if d.metadata_type = 1 then
    if fw.prevalidated_count = fw.prevalidated.length then
      (fw, .err "OVMF metadata defines too many memory regions")
    else
      ({ fw with
          prevalidated := fw.prevalidated.set fw.prevalidated_count ⟨d.base, d.len⟩,
          prevalidated_count := fw.prevalidated_count + 1 }, .ok ())
  else if d.metadata_type = 2 then ({ fw with secrets_page := d.base }, .ok ())
  else if d.metadata_type = 3 then ({ fw with cpuid_page := d.base }, .ok ())
  else if d.metadata_type = 4 then ({ fw with caa_page := d.base }, .ok ())
  else (fw, .ok ())

/-- The `for i in 0..metadata.num_desc` loop of `parse_sev_metadata`:
`remaining` descriptors left to process, `i` the current index. -/
def metaLoop (data : List Nat) (offset : Nat) :
    Nat → Nat → OvmfFwInfo → OvmfFwInfo × RustO Unit
  | 0, _, fw => (fw, .ok ())
  | remaining + 1, i, fw =>
    match descAt data offset i with
    | .err e => (fw, .err e)
    | .crash e => (fw, .crash e)
    | .ok d =>
      match applyDesc d fw with
      | (fw', .ok _) => metaLoop data offset remaining (i + 1) fw'
      | other => other

/-- `parse_sev_metadata` of `ovmf_firmware.rs`. -/
def parse_sev_metadata (data : List Nat) (table_data_offset : Nat)
    (fw : OvmfFwInfo) : OvmfFwInfo × RustO Unit :=
  match sevMetaHeader data table_data_offset with
  | .err e => (fw, .err e)
  | .crash e => (fw, .crash e)
  | .ok (offset, n) => metaLoop data offset n 0 fw

/-- `parse_sev_info_block` of `ovmf_firmware.rs`: slices `&data[0..4]`
(a panic when the payload is shorter than 4 bytes) and stores the
little-endian value as the AP reset address. -/
def parse_sev_info_block (data : List Nat) (fw : OvmfFwInfo) :
    OvmfFwInfo × RustO Unit :=
  match sliceChecked data 0 4 with
  | .err e => (fw, .err e)
  | .crash e => (fw, .crash e)
  | .ok bytes4 =>
    match read_u32 bytes4 with
    | .err e => (fw, .err e)
    | .crash e => (fw, .crash e)
    | .ok v => ({ fw with reset_addr := v }, .ok ())

/-- `parse_inner_table` of `ovmf_firmware.rs`: read one table, dispatch on
its GUID, and return the table's payload offset as the next cursor. -/
def parse_inner_table (current_offset : Nat) (data : List Nat)
    (fw : OvmfFwInfo) : OvmfFwInfo × RustO Nat :=
  match read_table current_offset data with
  | .err e => (fw, .err e)
  | .crash e => (fw, .crash e)
  | .ok table =>
    if table.uuid = sevMetadataGuidBytes then
      match parse_sev_metadata data table.data_offset fw with
      | (fw', .ok _) => (fw', .ok table.data_offset)
      | (fw', .err e) => (fw', .err e)
      | (fw', .crash e) => (fw', .crash e)
    else if table.uuid = sevInfoGuidBytes then
      match sliceChecked data table.data_offset (table.data_offset + table.data_length) with
      | .err e => (fw, .err e)
      | .crash e => (fw, .crash e)
      | .ok payload =>
        match parse_sev_info_block payload fw with
        | (fw', .ok _) => (fw', .ok table.data_offset)
        | (fw', .err e) => (fw', .err e)
        | (fw', .crash e) => (fw', .crash e)
    else (fw, .ok table.data_offset)

/-- The `while current_offset > ovmf_table.data_offset` loop of `parse_ovmf`,
with an explicit iteration bound (`fuel`).  Every successful
`parse_inner_table` step strictly decreases the cursor (by at least 18, see
`parse_inner_table_ok_le`), so a bound above the starting cursor is never
exhausted (`parseLoop_fuel_irrel`). -/
def parseLoop (data : List Nat) (stop : Nat) :
    Nat → Nat → OvmfFwInfo → OvmfFwInfo × RustO Unit
  | 0, _, fw => (fw, .crash "iteration bound exceeded")
  | fuel + 1, current_offset, fw =>
    if stop < current_offset then
      match parse_inner_table current_offset data fw with
      | (fw', .ok next) => parseLoop data stop fuel next fw'
      | (fw', .err e) => (fw', .err e)
      | (fw', .crash e) => (fw', .crash e)
    else (fw, .ok ())

/-- `parse_ovmf` of `ovmf_firmware.rs`: locate the footer table at
`len - 32`, check its GUID, then walk the inner tables backwards from the
end of the footer payload down to its start. -/
def parse_ovmf (data : List Nat) (fw : OvmfFwInfo) : OvmfFwInfo × RustO Unit :=
  if data.length < 32 then (fw, .err "OVMF firmware file is too small")
  else
    let current_offset := data.length - 32
    match read_table current_offset data with
    | .err e => (fw, .err e)
    | .crash e => (fw, .crash e)
    | .ok ovmf_table =>
      if ovmf_table.uuid ≠ footerGuidBytes then (fw, .err "OVMF table footer not found")
      else
        parseLoop data ovmf_table.data_offset
          (ovmf_table.data_offset + ovmf_table.data_length + 1)
          (ovmf_table.data_offset + ovmf_table.data_length) fw

/-- `IgvmPageDataType` values used by the source: `NORMAL`, `SECRETS`,
`CPUID_DATA`. -/
inductive PageDataType where
  | normal
  | secrets
  | cpuidData
  deriving DecidableEq, Repr

/-- One segment register block of `SevVmsa` (selector/base/limit/attrib). -/
structure VmsaSegment where
  selector : Nat
  base : Nat
  limit : Nat
  attrib : Nat
  deriving DecidableEq, Repr

/-- The fields of the `SevVmsa` register state that `vmsa.rs` writes, plus
`cr4` and `rflags`, which `SevVmsa::new_box_zeroed()` leaves at zero. -/
structure SevVmsa where
  cs : VmsaSegment
  ds : VmsaSegment
  es : VmsaSegment
  fs : VmsaSegment
  gs : VmsaSegment
  ss : VmsaSegment
  cr0 : Nat
  cr4 : Nat
  xcr0 : Nat
  rip : Nat
  rflags : Nat
  deriving DecidableEq, Repr

/-- `SevVmsa::new_box_zeroed()`: every field zero. -/
def vmsaZeroed : SevVmsa :=
  { cs := ⟨0, 0, 0, 0⟩, ds := ⟨0, 0, 0, 0⟩, es := ⟨0, 0, 0, 0⟩,
    fs := ⟨0, 0, 0, 0⟩, gs := ⟨0, 0, 0, 0⟩, ss := ⟨0, 0, 0, 0⟩,
    cr0 := 0, cr4 := 0, xcr0 := 0, rip := 0, rflags := 0 }

/-- The `IgvmDirectiveHeader` variants this program constructs (`PageData`,
`SnpVpContext`); `other` stands for every further variant of the external
`igvm` crate's enum, which this program never constructs but the final
reorder must handle. -/
inductive Directive where
  | pageData (gpa : Nat) (compatibility_mask : Nat) (data_type : PageDataType)
      (data : List Nat)
  | snpVpContext (gpa : Nat) (compatibility_mask : Nat) (vp_index : Nat)
      (vmsa : SevVmsa)
  | other (tag : Nat)
  deriving DecidableEq, Repr

/-- `data.chunks(PAGE_SIZE_4K)` with an explicit iteration bound; every step
consumes at least one element, so a bound of `l.length` or more is exact. -/
def pageChunksF : Nat → List Nat → List (List Nat)
  | 0, _ => []
  | fuel + 1, l => if l = [] then [] else l.take 4096 :: pageChunksF fuel (l.drop 4096)

/-- `data.chunks(PAGE_SIZE_4K)`: split into consecutive 4096-byte chunks,
the last possibly shorter. -/
def pageChunks (l : List Nat) : List (List Nat) :=
  pageChunksF l.length l

/-- The firmware-content page loop of `OvmfFirmware::parse`: one `PageData`
directive per chunk, at guest physical addresses advancing by 4096 from
`gpa`. -/
def buildFwPageDirectives (compatibility_mask gpa : Nat) :
    List (List Nat) → List Directive
  | [] => []
  | c :: cs =>
    .pageData gpa compatibility_mask .normal c ::
      buildFwPageDirectives compatibility_mask (gpa + 4096) cs

/-- The `(0..pv_mem.size).step_by(PAGE_SIZE_4K)` iterator, with an explicit
bound (`size` steps are always enough). -/
def pvOffsetsF : Nat → Nat → Nat → List Nat
  | 0, _, _ => []
  | fuel + 1, cur, size => if cur < size then cur :: pvOffsetsF fuel (cur + 4096) size else []

/-- Offsets `0, 4096, 8192, ...` strictly below `size`. -/
def pvOffsets (size : Nat) : List Nat :=
  pvOffsetsF size 0 size

/-- The inner prevalidated-region loop of `OvmfFirmware::parse`: one empty
`NORMAL` page per 4096-byte step; the `u32` addition `pv_mem.base + offset`
carries the debug overflow check. -/
def buildPvRegion (compatibility_mask base : Nat) : List Nat → RustO (List Directive)
  | [] => .ok []
  | o :: rest =>
    bindR (checkedAdd32 base o) fun gpa =>
    bindR (buildPvRegion compatibility_mask base rest) fun ds =>
    .ok (.pageData gpa compatibility_mask .normal [] :: ds)

/-- The outer `for i in 0..fw_info.prevalidated_count` loop of
`OvmfFirmware::parse`. -/
def buildPvPages (compatibility_mask : Nat) : List OvmfFwMem → RustO (List Directive)
  | [] => .ok []
  | m :: ms =>
    bindR (buildPvRegion compatibility_mask m.base (pvOffsets m.size)) fun ds₁ =>
    bindR (buildPvPages compatibility_mask ms) fun ds₂ =>
    .ok (ds₁ ++ ds₂)

/-- `Platform` of `cmd_options.rs`. -/
inductive Platform where
  | sev
  | sevEs
  | sevSnp
  | native
  deriving DecidableEq, Repr

/-- The SNP-only placeholder directives of `OvmfFirmware::parse`: empty
secrets, calling-area and CPUID pages, then the prevalidated-region pages. -/
def snpExtraDirectives (compatibility_mask : Nat) (fw : OvmfFwInfo) :
    RustO (List Directive) :=
  bindR (buildPvPages compatibility_mask (fw.prevalidated.take fw.prevalidated_count))
    fun pv =>
  .ok ([ .pageData fw.secrets_page compatibility_mask .secrets [],
         .pageData fw.caa_page compatibility_mask .normal [],
         .pageData fw.cpuid_page compatibility_mask .cpuidData [] ] ++ pv)

/-- Result of `OvmfFirmware::parse`: the firmware info and its directives. -/
structure OvmfFirmware where
  fw_info : OvmfFwInfo
  directives : List Directive
  deriving DecidableEq, Repr

/-- `OvmfFirmware::parse` of `ovmf_firmware.rs`, with the file already read
into `data` (the file I/O is outside the model): the 4 GiB size check, the
table-chain parse into a default `OvmfFwInfo`, the derived `start`/`size`
fields (the `as u32` cast is a wrap modulo `2^32`), the firmware content
pages, and the SNP placeholder pages. -/
def ovmfFirmwareParse (data : List Nat) (compatibility_mask : Nat)
    (platform : Platform) : RustO OvmfFirmware :=
  if 0xffffffff < data.length then .err "OVMF firmware is too large"
  else
    match parse_ovmf data ovmfFwInfoDefault with
    | (_, .err e) => .err e
    | (_, .crash e) => .crash e
    | (fw1, .ok _) =>
      let fw2 := { fw1 with
        start := (0xffffffff - data.length + 1) % 2 ^ 32,
        size := data.length % 2 ^ 32 }
      let fwPages := buildFwPageDirectives compatibility_mask fw2.start (pageChunks data)
      match (if platform = Platform.sevSnp
             then snpExtraDirectives compatibility_mask fw2
             else .ok []) with
      | .err e => .err e
      | .crash e => .crash e
      | .ok extras => .ok ⟨fw2, fwPages ++ extras⟩

/-- `construct_ap_vmsa` of `vmsa.rs` (the `Result` wrapper is always `Ok`):
real-mode reset state with CS pointing at the supplied reset address. -/
def construct_ap_vmsa (gpa_start compatibility_mask reset_addr vp_index : Nat) :
    Directive :=
  let seg93 : VmsaSegment := ⟨0, 0, 0xffff, 0x93⟩
  .snpVpContext gpa_start compatibility_mask vp_index
    { vmsaZeroed with
        cs := ⟨0xf000, reset_addr &&& 0xffff0000, 0xffff, 0x9b⟩,
        ds := seg93, es := seg93, fs := seg93, gs := seg93, ss := seg93,
        cr0 := 0x60000010, xcr0 := 1,
        rip := reset_addr &&& 0xffff }

/-- `construct_bsp_vmsa` of `vmsa.rs`: identical state with the fixed
architectural reset address `0xfffffff0` and processor index 0. -/
def construct_bsp_vmsa (gpa_start compatibility_mask : Nat) : Directive :=
  let seg93 : VmsaSegment := ⟨0, 0, 0xffff, 0x93⟩
  .snpVpContext gpa_start compatibility_mask 0
    { vmsaZeroed with
        cs := ⟨0xf000, 0xfffffff0 &&& 0xffff0000, 0xffff, 0x9b⟩,
        ds := seg93, es := seg93, fs := seg93, gs := seg93, ss := seg93,
        cr0 := 0x60000010, xcr0 := 1,
        rip := 0xfffffff0 &&& 0xffff }

/-- `COMPATIBILITY_MASK` of `igvm_builder.rs`. -/
def COMPATIBILITY_MASK : Nat := 1

/-- `IgvmBuilder::build_directives`: the firmware directives, then, for the
platforms needing per-processor state, the boot processor context at the
fixed address `0xFFFFFFFFF000` followed by one application processor context
per index in `1..cpucount`. -/
def build_directives (fwDirectives : List Directive) (reset_addr : Nat)
    (platform : Platform) (cpucount : Nat) : List Directive :=
  fwDirectives ++
    match platform with
    | .sevEs | .sevSnp =>
      construct_bsp_vmsa 0xFFFFFFFFF000 COMPATIBILITY_MASK ::
        (List.range' 1 (cpucount - 1)).map
          (fun vp => construct_ap_vmsa 0xFFFFFFFFF000 COMPATIBILITY_MASK reset_addr vp)
    | _ => []

/-- `IgvmBuilder::filter_pages`: `PageData` and `SnpVpContext` directives. -/
def filter_pages (d : Directive) : Bool :=
  match d with
  | .pageData _ _ _ _ => true
  | .snpVpContext _ _ _ _ => true
  | .other _ => false

/-- The final reorder of `IgvmBuilder::build`: stable-partition the list and
append the page/context directives after the others. -/
def reorderDirectives (l : List Directive) : List Directive :=
  let parts := l.partition filter_pages
  parts.2 ++ parts.1

/-- Payload bytes of a directive (`PageData` carries data, the others none). -/
def dirData : Directive → List Nat
  | .pageData _ _ _ d => d
  | _ => []

/-- Guest physical address of a directive. -/
def dirGpa : Directive → Nat
  | .pageData g _ _ _ => g
  | .snpVpContext g _ _ _ => g
  | .other _ => 0

/-- Processor index of a `SnpVpContext` directive. -/
def dirVpIndex : Directive → Nat
  | .snpVpContext _ _ i _ => i
  | _ => 0

/-- Embedded register state of a `SnpVpContext` directive. -/
def dirVmsa : Directive → SevVmsa
  | .snpVpContext _ _ _ v => v
  | _ => vmsaZeroed

/-- Whether a directive is a processor-context (`SnpVpContext`) directive. -/
def isSnpVpContext : Directive → Bool
  | .snpVpContext _ _ _ _ => true
  | _ => false

/-- A 50-byte firmware image that parses successfully: a footer table of
length 18 (empty payload) at the fixed 32-byte tail offset. -/
def fwData50 : List Nat := [18, 0] ++ footerGuidBytes ++ List.replicate 32 0

/-- The little-endian `u16` table-length field that `read_table` reads at
`current_offset - 18` (used to state its input/output contract). -/
def tableSizeAt (data : List Nat) (cur : Nat) : Nat :=
  data.getD (cur - 18) 0 % 256 + data.getD (cur - 17) 0 % 256 * 256

/-- The descriptor-processing loop of `parse_sev_metadata` abstracted over
the already-read descriptor list (proof vehicle relating `metaLoop` to the
sequence of descriptors it reads). -/
def processDescs : List MetadataDesc → OvmfFwInfo → OvmfFwInfo × RustO Unit
  | [], fw => (fw, .ok ())
  | d :: rest, fw =>
    match applyDesc d fw with
    | (fw', .ok _) => processDescs rest fw'
    | other => other

/-- The `OvmfFwInfo` produced by parsing `fwData50` (all metadata zero, the
derived placement fields set). -/
def fwInfo50 : OvmfFwInfo :=
  { start := 4294967246, size := 50, secrets_page := 0, caa_page := 0,
    cpuid_page := 0, reset_addr := 0, prevalidated_count := 0,
    prevalidated := List.replicate 8 ⟨0, 0⟩ }

/-- `OvmfFirmware::parse fwData50` under the `Native` platform. -/
def fwResult50Native : OvmfFirmware :=
  ⟨fwInfo50, [.pageData 4294967246 1 .normal fwData50]⟩

/-- `OvmfFirmware::parse fwData50` under the `SevSnp` platform. -/
def fwResult50Snp : OvmfFirmware :=
  ⟨fwInfo50,
   [.pageData 4294967246 1 .normal fwData50,
    .pageData 0 1 .secrets [], .pageData 0 1 .normal [],
    .pageData 0 1 .cpuidData []]⟩

/-- A concrete SEV metadata table: 16-byte header declaring 9 descriptors,
nine type-1 (memory) descriptors `{base := i, len := 2}`, and the trailing
4-byte offset-from-end field (the table sits at offset 0 of this 128-byte
buffer). -/
def metaData9 : List Nat :=
  [0, 0, 0, 0, 0, 0, 0, 0, 0, 0, 0, 0, 9, 0, 0, 0] ++
  [1, 0, 0, 0, 2, 0, 0, 0, 1, 0, 0, 0] ++
  [2, 0, 0, 0, 2, 0, 0, 0, 1, 0, 0, 0] ++
  [3, 0, 0, 0, 2, 0, 0, 0, 1, 0, 0, 0] ++
  [4, 0, 0, 0, 2, 0, 0, 0, 1, 0, 0, 0] ++
  [5, 0, 0, 0, 2, 0, 0, 0, 1, 0, 0, 0] ++
  [6, 0, 0, 0, 2, 0, 0, 0, 1, 0, 0, 0] ++
  [7, 0, 0, 0, 2, 0, 0, 0, 1, 0, 0, 0] ++
  [8, 0, 0, 0, 2, 0, 0, 0, 1, 0, 0, 0] ++
  [9, 0, 0, 0, 2, 0, 0, 0, 1, 0, 0, 0] ++
  [128, 0, 0, 0]

/-- The nine memory descriptors encoded in `metaData9`. -/
def descs9 : List MetadataDesc :=
  [⟨1, 2, 1⟩, ⟨2, 2, 1⟩, ⟨3, 2, 1⟩, ⟨4, 2, 1⟩, ⟨5, 2, 1⟩,
   ⟨6, 2, 1⟩, ⟨7, 2, 1⟩, ⟨8, 2, 1⟩, ⟨9, 2, 1⟩]

/-- A 68-byte firmware image with a valid footer (table length 20, payload
length 2) whose single inner table has length field 0: the walker's inner
loop hits the `table_size - 18` underflow. -/
def data68 : List Nat :=
  List.replicate 18 0 ++ [20, 0] ++ footerGuidBytes ++ List.replicate 32 0

end BuildIgvm

namespace BuildIgvm

/-! ## Claim C10: oversized firmware is rejected up front -/

/-- C10: for every firmware byte string longer than `0xffffffff` bytes,
`OvmfFirmware::parse` fails with the "too large" error; the check is the
first step of the function, before any table parsing or directive
construction, so the 32-bit `start`/`size` fields can always represent the
placement. -/
theorem C10_parse_rejects_oversized_firmware (data : List Nat)
    (compatibility_mask : Nat) (platform : Platform)
    (h : 0xffffffff < data.length) :
    ovmfFirmwareParse data compatibility_mask platform =
      .err "OVMF firmware is too large" := by
  simp [ovmfFirmwareParse, h]

/-- Witness for C10 at a concrete 2^32-byte input. -/
theorem C10_witness :
    ovmfFirmwareParse (List.replicate (2 ^ 32) 0) 1 Platform.native =
      .err "OVMF firmware is too large" :=
  C10_parse_rejects_oversized_firmware (List.replicate (2 ^ 32) 0) 1
    Platform.native (by rw [List.length_replicate]; norm_num)

/-! ## Claim C8: the constructed VMSA register state -/

/-- C8 counterexample: the code never writes `cr4` or `rflags`, so both stay
at the zero left by `SevVmsa::new_box_zeroed()`; the claimed values
`CR4 = 0x40` and `RFLAGS = 2` are wrong at this concrete reset address and
processor index. -/
theorem C8_counterexample :
    (dirVmsa (construct_ap_vmsa 0xFFFFFFFFF000 1 0x12345678 1)).cr4 = 0 ∧
    (dirVmsa (construct_ap_vmsa 0xFFFFFFFFF000 1 0x12345678 1)).rflags = 0 ∧
    (dirVmsa (construct_ap_vmsa 0xFFFFFFFFF000 1 0x12345678 1)).cr4 ≠ 0x40 ∧
    (dirVmsa (construct_ap_vmsa 0xFFFFFFFFF000 1 0x12345678 1)).rflags ≠ 2 := by
  decide

/-- C8 amended: for every reset address and processor index the constructed
state has `CR4 = 0` and `RFLAGS = 0` (never written, left zeroed) and
`CR0 = 0x60000010`, `XCR0 = 1`, CS selector `0xF000`,
CS base `reset_addr & 0xFFFF0000`, instruction pointer `reset_addr & 0xFFFF`,
and each data segment DS/ES/FS/GS/SS with selector 0, base 0, limit `0xFFFF`,
access byte `0x93`; the boot processor uses the fixed reset address
`0xFFFFFFF0`. -/
theorem C8_vmsa_register_state (gpa mask reset_addr vp_index gpa' mask' : Nat) :
    (dirVmsa (construct_ap_vmsa gpa mask reset_addr vp_index)).cr4 = 0 ∧
    (dirVmsa (construct_ap_vmsa gpa mask reset_addr vp_index)).rflags = 0 ∧
    (dirVmsa (construct_ap_vmsa gpa mask reset_addr vp_index)).xcr0 = 1 ∧
    (dirVmsa (construct_ap_vmsa gpa mask reset_addr vp_index)).cr0 = 0x60000010 ∧
    (dirVmsa (construct_ap_vmsa gpa mask reset_addr vp_index)).cs =
      ⟨0xf000, reset_addr &&& 0xffff0000, 0xffff, 0x9b⟩ ∧
    (dirVmsa (construct_ap_vmsa gpa mask reset_addr vp_index)).rip =
      reset_addr &&& 0xffff ∧
    (dirVmsa (construct_ap_vmsa gpa mask reset_addr vp_index)).ds =
      ⟨0, 0, 0xffff, 0x93⟩ ∧
    (dirVmsa (construct_ap_vmsa gpa mask reset_addr vp_index)).es =
      ⟨0, 0, 0xffff, 0x93⟩ ∧
    (dirVmsa (construct_ap_vmsa gpa mask reset_addr vp_index)).fs =
      ⟨0, 0, 0xffff, 0x93⟩ ∧
    (dirVmsa (construct_ap_vmsa gpa mask reset_addr vp_index)).gs =
      ⟨0, 0, 0xffff, 0x93⟩ ∧
    (dirVmsa (construct_ap_vmsa gpa mask reset_addr vp_index)).ss =
      ⟨0, 0, 0xffff, 0x93⟩ ∧
    (dirVmsa (construct_bsp_vmsa gpa' mask')).cr4 = 0 ∧
    (dirVmsa (construct_bsp_vmsa gpa' mask')).rflags = 0 ∧
    (dirVmsa (construct_bsp_vmsa gpa' mask')).xcr0 = 1 ∧
    (dirVmsa (construct_bsp_vmsa gpa' mask')).cs =
      ⟨0xf000, 0xfffffff0 &&& 0xffff0000, 0xffff, 0x9b⟩ ∧
    (dirVmsa (construct_bsp_vmsa gpa' mask')).rip = 0xfffffff0 &&& 0xffff ∧
    dirVpIndex (construct_bsp_vmsa gpa' mask') = 0 :=
  ⟨rfl, rfl, rfl, rfl, rfl, rfl, rfl, rfl, rfl, rfl, rfl, rfl, rfl, rfl,
   rfl, rfl, rfl⟩

/-! ## Claim C9: short payloads make the interpreters panic, not error -/

/-- C9: the claim (and the spec) say both payload interpreters fail with a
parse error on a byte range shorter than required; the code instead panics:
`parse_sev_info_block` slices `&data[0..4]` before `read_u32`'s guarded
length check can run, and `parse_sev_metadata` computes
`data.len() - offset` unchecked and slices the header and each descriptor
unchecked, so the guarded `Err` returns inside `read_u32` and the two
`try_from` implementations are unreachable at these call sites.  Evaluations
at the failing inputs: a 3-byte info-block payload; a metadata table whose
offset-from-end value (200) exceeds the 4-byte file; a metadata table whose
16-byte header does not fit; a metadata table declaring one descriptor with
no descriptor bytes behind it. -/
theorem C9_short_payload_panics :
    parse_sev_info_block (List.replicate 3 0) ovmfFwInfoDefault =
      (ovmfFwInfoDefault, .crash "slice index out of range") ∧
    parse_sev_metadata [200, 0, 0, 0] 0 ovmfFwInfoDefault =
      (ovmfFwInfoDefault, .crash "attempt to subtract with overflow") ∧
    parse_sev_metadata ([4, 0, 0, 0] ++ List.replicate 12 0) 0 ovmfFwInfoDefault =
      (ovmfFwInfoDefault, .crash "slice index out of range") ∧
    parse_sev_metadata
      [0, 0, 0, 0, 0, 0, 0, 0, 0, 0, 0, 0, 1, 0, 0, 0, 20, 0, 0, 0] 16
      ovmfFwInfoDefault =
      (ovmfFwInfoDefault, .crash "slice index out of range") := by
  refine ⟨by decide, by decide, by decide, by decide⟩

/-! ## Claim C2: the final reorder is a stable partition -/

/-- C2: the final reorder of `IgvmBuilder::build` is a stable partition: the
output is exactly the non-page/context directives in their original relative
order (a filtered sublist) followed by the page/context directives in their
original relative order (a filtered sublist), and the output is a
permutation of the input; hence every non-page/context directive appears
before every page/context directive. -/
theorem C2_reorder_is_stable_partition (l : List Directive) :
    reorderDirectives l =
      l.filter (fun d => !filter_pages d) ++ l.filter filter_pages ∧
    (reorderDirectives l).Perm l ∧
    (∀ d ∈ l.filter (fun d => !filter_pages d), filter_pages d = false) ∧
    (∀ d ∈ l.filter filter_pages, filter_pages d = true) ∧
    (l.filter (fun d => !filter_pages d)).Sublist l ∧
    (l.filter filter_pages).Sublist l := by
  have hdec : reorderDirectives l =
      l.filter (fun d => !filter_pages d) ++ l.filter filter_pages := by
    simp only [reorderDirectives, List.partition_eq_filter_filter]
    rfl
  refine ⟨hdec, ?_, ?_, ?_, List.filter_sublist l, List.filter_sublist l⟩
  · rw [hdec]
    exact List.perm_append_comm.trans (List.filter_append_perm _ l)
  · intro d hd
    have := List.of_mem_filter hd
    simpa using this
  · intro d hd
    exact List.of_mem_filter hd

/-- Witness for C2 on a concrete mixed directive list. -/
theorem C2_witness :
    reorderDirectives
      [.other 5, .pageData 3 1 .normal [], .other 7,
       .snpVpContext 9 1 0 vmsaZeroed] =
      [.other 5, .other 7, .pageData 3 1 .normal [],
       .snpVpContext 9 1 0 vmsaZeroed] :=
  (C2_reorder_is_stable_partition
    [.other 5, .pageData 3 1 .normal [], .other 7,
     .snpVpContext 9 1 0 vmsaZeroed]).1.trans (by decide)

/-! ## Supporting lemmas on the table walker -/

/-- A successful `read_table` implies the offset was at least 18 and the
returned payload offset lies at least 18 below the current offset (the
length field was between 18 and the current offset). -/
theorem read_table_ok_bounds {cur : Nat} {data : List Nat} {t : TableInfo}
    (h : read_table cur data = .ok t) : 18 ≤ cur ∧ t.data_offset + 18 ≤ cur := by
  unfold read_table at h
  split at h
  · exact absurd h (by simp)
  · rename_i hc
    cases h1 : sliceChecked data (cur - 16) cur with
    | err e => rw [h1] at h; simp at h
    | crash e => rw [h1] at h; simp at h
    | ok uuid =>
      rw [h1, bindR_ok] at h
      cases h2 : sliceChecked data (cur - 18) (cur - 16) with
      | err e => rw [h2] at h; simp at h
      | crash e => rw [h2] at h; simp at h
      | ok szb =>
        rw [h2, bindR_ok] at h
        cases h3 : read_u16 szb with
        | err e => rw [h3] at h; simp at h
        | crash e => rw [h3] at h; simp at h
        | ok ts =>
          rw [h3, bindR_ok] at h
          split at h
          · exact absurd h (by simp)
          · rename_i hts
            cases h4 : csub ts 18 with
            | err e => rw [h4] at h; simp at h
            | crash e => rw [h4] at h; simp at h
            | ok dl =>
              rw [h4, bindR_ok] at h
              have h18ts : 18 ≤ ts := by
                unfold csub at h4
                split at h4
                · assumption
                · exact absurd h4 (by simp)
              cases h
              refine ⟨by omega, ?_⟩
              simp only []
              omega

/-- A successful `parse_inner_table` step returns a next cursor at least 18
below the current one. -/
theorem parse_inner_table_ok_le {cur : Nat} {data : List Nat}
    {fw fw' : OvmfFwInfo} {next : Nat}
    (h : parse_inner_table cur data fw = (fw', .ok next)) : next + 18 ≤ cur := by
  unfold parse_inner_table at h
  split at h
  · simp at h
  · simp at h
  · rename_i t heq
    have hb := read_table_ok_bounds heq
    split at h
    · split at h
      · injection h with h1 h2
        injection h2 with h3
        omega
      · simp at h
      · simp at h
    · split at h
      · split at h
        · simp at h
        · simp at h
        · split at h
          · injection h with h1 h2
            injection h2 with h3
            omega
          · simp at h
          · simp at h
      · injection h with h1 h2
        injection h2 with h3
        omega

/-- The loop bound of `parseLoop` is irrelevant once it exceeds the current
cursor: every successful step decreases the cursor, so the loop terminates
within `cur` iterations whatever larger bound is supplied. -/
theorem parseLoop_fuel_irrel (data : List Nat) (stop : Nat) :
    ∀ cur f₁ f₂, cur < f₁ → cur < f₂ → ∀ fw,
      parseLoop data stop f₁ cur fw = parseLoop data stop f₂ cur fw := by
  intro cur
  induction cur using Nat.strong_induction_on with
  | _ cur ih =>
    intro f₁ f₂ h₁ h₂ fw
    obtain ⟨a, rfl⟩ : ∃ a, f₁ = a + 1 := ⟨f₁ - 1, by omega⟩
    obtain ⟨b, rfl⟩ : ∃ b, f₂ = b + 1 := ⟨f₂ - 1, by omega⟩
    show parseLoop data stop (a + 1) cur fw = parseLoop data stop (b + 1) cur fw
    unfold parseLoop
    split
    · rcases hp : parse_inner_table cur data fw with ⟨fw', r⟩
      cases r with
      | ok next =>
        have hlt := parse_inner_table_ok_le hp
        exact ih next (by omega) a b (by omega) (by omega) fw'
      | err e => rfl
      | crash e => rfl
    · rfl

/-! ## Claim C3: termination of the table-walking loop -/

/-- C3 counterexample: the claim says every iteration of the inner-table
loop either fails with an error or strictly decreases the cursor, the
decrease being enforced by the length-exceeds-current-offset check.  With a
length field of 0 (which passes that check) the iteration instead panics on
the `table_size - 18` underflow — it neither returns an error nor
decreases the cursor; the second equation shows the state is reachable from
`parse_ovmf` on a 68-byte image with a valid footer.  (Under wrapping
arithmetic, the same input would loop forever: the next cursor would equal
the current one.) -/
theorem C3_counterexample :
    parse_inner_table 18 (List.replicate 18 0) ovmfFwInfoDefault =
      (ovmfFwInfoDefault, .crash "attempt to subtract with overflow") ∧
    parse_ovmf data68 ovmfFwInfoDefault =
      (ovmfFwInfoDefault, .crash "attempt to subtract with overflow") :=
  ⟨by decide, by decide⟩

/-- C3 amended: every iteration of the inner-table loop either fails with an
error, panics (on a length field below 18, via the payload-length
underflow), or strictly decreases the cursor by at least 18; consequently the
loop's result is independent of any iteration bound exceeding the starting
cursor (the loop always terminates within `cur` steps), and the loop exits
successfully as soon as the cursor reaches — or has passed — the footer's
payload offset. -/
theorem C3_walker_terminates (data : List Nat) (stop cur : Nat)
    (fw : OvmfFwInfo) :
    ((∃ fw' e, parse_inner_table cur data fw = (fw', .err e)) ∨
     (∃ fw' e, parse_inner_table cur data fw = (fw', .crash e)) ∨
     (∃ fw' next, parse_inner_table cur data fw = (fw', .ok next) ∧
        next + 18 ≤ cur)) ∧
    (∀ fuel, cur < fuel →
      parseLoop data stop fuel cur fw = parseLoop data stop (cur + 1) cur fw) ∧
    (cur ≤ stop → ∀ fuel, 0 < fuel →
      parseLoop data stop fuel cur fw = (fw, .ok ())) := by
  refine ⟨?_, ?_, ?_⟩
  · rcases hp : parse_inner_table cur data fw with ⟨fw', r⟩
    cases r with
    | ok next => exact Or.inr (Or.inr ⟨fw', next, rfl, parse_inner_table_ok_le hp⟩)
    | err e => exact Or.inl ⟨fw', e, rfl⟩
    | crash e => exact Or.inr (Or.inl ⟨fw', e, rfl⟩)
  · intro fuel hf
    exact parseLoop_fuel_irrel data stop cur fuel (cur + 1) hf (by omega) fw
  · intro hstop fuel hf
    obtain ⟨a, rfl⟩ : ∃ a, fuel = a + 1 := ⟨fuel - 1, by omega⟩
    unfold parseLoop
    rw [if_neg (by omega)]

/-- Witness for C3: the loop exits immediately when the cursor is at or
below the stop offset. -/
theorem C3_witness :
    parseLoop [] 5 4 3 ovmfFwInfoDefault = (ovmfFwInfoDefault, .ok ()) :=
  (C3_walker_terminates [] 5 3 ovmfFwInfoDefault).2.2 (by decide) 4 (by decide)

/-! ## Claim C4: the read_table contract -/

/-- C4 counterexample: the claim says that apart from the two documented
`MalformedTable` error cases `read_table` returns a result or fails without
panicking or reading out of bounds, explicitly including a length field
smaller than 18.  At `current_offset = 18` on an 18-byte zero buffer the
length field is 0 (which is ≤ the current offset, so neither error case
applies) and the payload-length computation `table_size - 18` panics with a
subtraction overflow; and at `current_offset = 20` on a 2-byte buffer the
GUID slice `data[4..20]` is out of bounds and panics. -/
theorem C4_counterexample :
    read_table 18 (List.replicate 18 0) =
      .crash "attempt to subtract with overflow" ∧
    read_table 20 (List.replicate 2 0) = .crash "slice index out of range" :=
  ⟨by decide, by decide⟩

/-- C4 amended: for every buffer and every current offset within the buffer,
`read_table` fails with the `MalformedTable` error when the offset is below
18, fails with the `MalformedTable` error when the 2-byte length field
exceeds the offset, and returns the GUID/payload-range result without
panicking whenever the length field lies between 18 and the offset; the two
panic cases forced by the counterexample (offset beyond the buffer, length
field below 18) are excluded by the hypotheses. -/
theorem C4_read_table_contract (data : List Nat) (cur : Nat)
    (hlen : cur ≤ data.length) :
    (cur < 18 → read_table cur data = .err "Invalid metadata table in OVMF firmware") ∧
    (18 ≤ cur →
      (cur < tableSizeAt data cur →
        read_table cur data = .err "Invalid metadata table in OVMF firmware") ∧
      (tableSizeAt data cur ≤ cur → 18 ≤ tableSizeAt data cur →
        read_table cur data =
          .ok ⟨(data.drop (cur - 16)).take 16, cur - tableSizeAt data cur,
               tableSizeAt data cur - 18⟩)) := by
  constructor
  · intro h
    simp [read_table, h]
  · intro h18
    have e16 : cur - (cur - 16) = 16 := by omega
    have e2 : cur - 16 - (cur - 18) = 2 := by omega
    have h1 : sliceChecked data (cur - 16) cur =
        .ok ((data.drop (cur - 16)).take 16) := by
      unfold sliceChecked
      rw [if_pos ⟨by omega, hlen⟩, e16]
    have h2 : sliceChecked data (cur - 18) (cur - 16) =
        .ok ((data.drop (cur - 18)).take 2) := by
      unfold sliceChecked
      rw [if_pos ⟨by omega, by omega⟩, e2]
    have hlen2 : ((data.drop (cur - 18)).take 2).length = 2 := by
      rw [List.length_take, List.length_drop]
      omega
    have g0 : ((data.drop (cur - 18)).take 2).getD 0 0 = data.getD (cur - 18) 0 := by
      rw [List.getD_eq_getElem?_getD, List.getD_eq_getElem?_getD,
        List.getElem?_take_of_lt (by omega : (0 : Nat) < 2), List.getElem?_drop,
        Nat.add_zero]
    have g1 : ((data.drop (cur - 18)).take 2).getD 1 0 = data.getD (cur - 17) 0 := by
      rw [List.getD_eq_getElem?_getD, List.getD_eq_getElem?_getD,
        List.getElem?_take_of_lt (by omega : (1 : Nat) < 2), List.getElem?_drop]
      congr 2
      omega
    have h3 : read_u16 ((data.drop (cur - 18)).take 2) = .ok (tableSizeAt data cur) := by
      unfold read_u16
      rw [if_neg (by omega)]
      rw [g0, g1]
      rfl
    have hrt : read_table cur data =
        (if cur < tableSizeAt data cur then
           .err "Invalid metadata table in OVMF firmware"
         else
           bindR (csub (tableSizeAt data cur) 18) fun data_length =>
           .ok ⟨(data.drop (cur - 16)).take 16, cur - tableSizeAt data cur,
                data_length⟩) := by
      unfold read_table
      rw [if_neg (by omega), h1, bindR_ok, h2, bindR_ok, h3, bindR_ok]
    constructor
    · intro hgt
      rw [hrt, if_pos hgt]
    · intro hle hge
      rw [hrt, if_neg (by omega)]
      unfold csub
      rw [if_pos hge, bindR_ok]

/-- Witness for C4: the footer table of the 50-byte firmware, read at
offset 18 (length field 18, so the in-range success case applies). -/
theorem C4_witness : read_table 18 fwData50 = .ok ⟨footerGuidBytes, 0, 0⟩ :=
  ((((C4_read_table_contract fwData50 18 (by decide)).2 (by decide)).2
    (by decide) (by decide))).trans (by decide)

/-! ## Supporting lemmas for the SEV metadata descriptor loop -/

/-- The indexed descriptor loop equals the abstract fold over the descriptor
list it reads. -/
theorem metaLoop_eq_processDescs (data : List Nat) (offset : Nat) :
    ∀ (ds : List MetadataDesc) (i : Nat) (fw : OvmfFwInfo),
      (∀ j (hj : j < ds.length), descAt data offset (i + j) = .ok (ds.get ⟨j, hj⟩)) →
      metaLoop data offset ds.length i fw = processDescs ds fw := by
  intro ds
  induction ds with
  | nil => intro i fw _; rfl
  | cons d rest ih =>
    intro i fw h
    have h0 : descAt data offset i = .ok d := by
      have := h 0 (by simp)
      simpa using this
    show metaLoop data offset (rest.length + 1) i fw = _
    rw [metaLoop, h0]
    rcases ha : applyDesc d fw with ⟨fw', r⟩
    cases r with
    | ok u =>
      have hrec := ih (i + 1) fw' (fun j hj => by
        have hj' : j + 1 < (d :: rest).length := by simp; omega
        have := h (j + 1) hj'
        have harith : i + (j + 1) = i + 1 + j := by omega
        rw [harith] at this
        simpa [List.get] using this)
      simp [processDescs, ha, hrec]
    | err e => simp [processDescs, ha]
    | crash e => simp [processDescs, ha]

/-- Setting the element just past a prefix `q` inside `q ++ replicate m z`
appends it to the prefix. -/
theorem set_append_replicate (q : List OvmfFwMem) (m : Nat) (z x : OvmfFwMem)
    (hm : 1 ≤ m) :
    (q ++ List.replicate m z).set q.length x =
      (q ++ [x]) ++ List.replicate (m - 1) z := by
  induction q with
  | nil =>
    obtain ⟨k, rfl⟩ : ∃ k, m = k + 1 := ⟨m - 1, by omega⟩
    simp [List.replicate_succ]
  | cons a q ih =>
    simpa using ih

/-- A non-memory descriptor leaves the prevalidated list and count alone and
never fails. -/
theorem applyDesc_nonmem {d : MetadataDesc} {fw : OvmfFwInfo}
    (h : (d.metadata_type == 1) = false) :
    (applyDesc d fw).2 = .ok () ∧
    (applyDesc d fw).1.prevalidated = fw.prevalidated ∧
    (applyDesc d fw).1.prevalidated_count = fw.prevalidated_count := by
  have h' : ¬ d.metadata_type = 1 := by simpa using h
  unfold applyDesc
  rw [if_neg h']
  split_ifs <;> exact ⟨rfl, rfl, rfl⟩

/-- Fold invariant, non-overflow case: processing descriptors whose memory
entries still fit appends exactly those entries, in order, after the prefix
`q`, and succeeds. -/
theorem processDescs_ok (ds : List MetadataDesc) :
    ∀ (fw : OvmfFwInfo) (q : List OvmfFwMem),
      fw.prevalidated = q ++ List.replicate (8 - q.length) ⟨0, 0⟩ →
      fw.prevalidated_count = q.length →
      q.length + (ds.filter (fun d => d.metadata_type == 1)).length ≤ 8 →
      (processDescs ds fw).2 = .ok () ∧
      (processDescs ds fw).1.prevalidated_count =
        q.length + (ds.filter (fun d => d.metadata_type == 1)).length ∧
      (processDescs ds fw).1.prevalidated =
        (q ++ (ds.filter (fun d => d.metadata_type == 1)).map
          (fun d => ⟨d.base, d.len⟩)) ++
        List.replicate
          (8 - q.length - (ds.filter (fun d => d.metadata_type == 1)).length)
          ⟨0, 0⟩ := by
  induction ds with
  | nil =>
    intro fw q hp hc _
    refine ⟨rfl, by simpa using hc, ?_⟩
    simpa using hp
  | cons d rest ih =>
    intro fw q hp hc hbound
    by_cases hmem : (d.metadata_type == 1) = true
    · have hfilter : (d :: rest).filter (fun d => d.metadata_type == 1) =
          d :: rest.filter (fun d => d.metadata_type == 1) := by
        simp [List.filter, hmem]
      rw [hfilter] at hbound ⊢
      rw [List.length_cons] at hbound
      have hqlt : q.length < 8 := by omega
      have happ : applyDesc d fw =
          ({ fw with
              prevalidated := fw.prevalidated.set fw.prevalidated_count
                ⟨d.base, d.len⟩,
              prevalidated_count := fw.prevalidated_count + 1 }, .ok ()) := by
        unfold applyDesc
        rw [if_pos (by simpa using hmem), if_neg (by rw [hp, hc]; simp; omega)]
      have hstep : processDescs (d :: rest) fw =
          processDescs rest
            { fw with
                prevalidated := fw.prevalidated.set fw.prevalidated_count
                  ⟨d.base, d.len⟩,
                prevalidated_count := fw.prevalidated_count + 1 } := by
        rw [processDescs, happ]
      rw [hstep]
      have hset : fw.prevalidated.set fw.prevalidated_count
          (⟨d.base, d.len⟩ : OvmfFwMem) =
          (q ++ [(⟨d.base, d.len⟩ : OvmfFwMem)]) ++
            List.replicate (8 - (q ++ [(⟨d.base, d.len⟩ : OvmfFwMem)]).length)
              ⟨0, 0⟩ := by
        rw [hp, hc, set_append_replicate _ _ _ _ (by omega)]
        congr 2
        rw [List.length_append, List.length_singleton]
        omega
      have hrec := ih
        { fw with
            prevalidated := fw.prevalidated.set fw.prevalidated_count
              ⟨d.base, d.len⟩,
            prevalidated_count := fw.prevalidated_count + 1 }
        (q ++ [(⟨d.base, d.len⟩ : OvmfFwMem)])
        hset
        (by rw [List.length_append, List.length_singleton, hc])
        (by rw [List.length_append, List.length_singleton]; omega)
      refine ⟨hrec.1, ?_, ?_⟩
      · rw [hrec.2.1, List.length_append, List.length_singleton,
          List.length_cons]
        omega
      · rw [hrec.2.2]
        have hcnt2 : (8 : Nat) - (q ++ [(⟨d.base, d.len⟩ : OvmfFwMem)]).length -
            (rest.filter (fun d => d.metadata_type == 1)).length =
            8 - q.length -
              (d :: rest.filter (fun d => d.metadata_type == 1)).length := by
          rw [List.length_append, List.length_singleton, List.length_cons]
          omega
        rw [hcnt2]
        simp [List.append_assoc]
    · have hmem' : (d.metadata_type == 1) = false := by
        simpa using hmem
      have hfilter : (d :: rest).filter (fun d => d.metadata_type == 1) =
          rest.filter (fun d => d.metadata_type == 1) := by
        simp [List.filter, hmem']
      rw [hfilter] at hbound ⊢
      obtain ⟨hok, hpre, hcnt⟩ := @applyDesc_nonmem d fw hmem'
      have hstep : processDescs (d :: rest) fw =
          processDescs rest (applyDesc d fw).1 := by
        rw [processDescs]
        rcases ha : applyDesc d fw with ⟨fw', r⟩
        rw [ha] at hok
        simp at hok
        subst hok
        rfl
      rw [hstep]
      exact ih _ q (by rw [hpre]; exact hp) (by rw [hcnt]; exact hc) hbound

/-- Fold invariant, overflow case: once the memory entries exceed the
capacity 8, the fold fails with the too-many-regions error exactly at the
ninth entry, leaving the first eight recorded in order and the count at 8. -/
theorem processDescs_over (ds : List MetadataDesc) :
    ∀ (fw : OvmfFwInfo) (q : List OvmfFwMem),
      fw.prevalidated = q ++ List.replicate (8 - q.length) ⟨0, 0⟩ →
      fw.prevalidated_count = q.length →
      q.length ≤ 8 →
      8 < q.length + (ds.filter (fun d => d.metadata_type == 1)).length →
      (processDescs ds fw).2 = .err "OVMF metadata defines too many memory regions" ∧
      (processDescs ds fw).1.prevalidated_count = 8 ∧
      (processDescs ds fw).1.prevalidated =
        q ++ ((ds.filter (fun d => d.metadata_type == 1)).take (8 - q.length)).map
          (fun d => ⟨d.base, d.len⟩) := by
  induction ds with
  | nil =>
    intro fw q _ _ hle hover
    simp at hover
    omega
  | cons d rest ih =>
    intro fw q hp hc hle hover
    by_cases hmem : (d.metadata_type == 1) = true
    · have hfilter : (d :: rest).filter (fun d => d.metadata_type == 1) =
          d :: rest.filter (fun d => d.metadata_type == 1) := by
        simp [List.filter, hmem]
      rw [hfilter] at hover ⊢
      rw [List.length_cons] at hover
      by_cases hfull : q.length = 8
      · have happ : applyDesc d fw =
            (fw, .err "OVMF metadata defines too many memory regions") := by
          unfold applyDesc
          rw [if_pos (by simpa using hmem),
            if_pos (by rw [hp, hc]; simp; omega)]
        have hstep : processDescs (d :: rest) fw =
            (fw, .err "OVMF metadata defines too many memory regions") := by
          rw [processDescs, happ]
        rw [hstep]
        refine ⟨rfl, by rw [hc, hfull], ?_⟩
        rw [hp, hfull]
        simp
      · have hqlt : q.length < 8 := by omega
        have happ : applyDesc d fw =
            ({ fw with
                prevalidated := fw.prevalidated.set fw.prevalidated_count
                  ⟨d.base, d.len⟩,
                prevalidated_count := fw.prevalidated_count + 1 }, .ok ()) := by
          unfold applyDesc
          rw [if_pos (by simpa using hmem), if_neg (by rw [hp, hc]; simp; omega)]
        have hstep : processDescs (d :: rest) fw =
            processDescs rest
              { fw with
                  prevalidated := fw.prevalidated.set fw.prevalidated_count
                    ⟨d.base, d.len⟩,
                  prevalidated_count := fw.prevalidated_count + 1 } := by
          rw [processDescs, happ]
        rw [hstep]
        have hset : fw.prevalidated.set fw.prevalidated_count
            (⟨d.base, d.len⟩ : OvmfFwMem) =
            (q ++ [(⟨d.base, d.len⟩ : OvmfFwMem)]) ++
              List.replicate (8 - (q ++ [(⟨d.base, d.len⟩ : OvmfFwMem)]).length)
                ⟨0, 0⟩ := by
          rw [hp, hc, set_append_replicate _ _ _ _ (by omega)]
          congr 2
          rw [List.length_append, List.length_singleton]
          omega
        have hrec := ih
          { fw with
              prevalidated := fw.prevalidated.set fw.prevalidated_count
                ⟨d.base, d.len⟩,
              prevalidated_count := fw.prevalidated_count + 1 }
          (q ++ [(⟨d.base, d.len⟩ : OvmfFwMem)])
          hset
          (by rw [List.length_append, List.length_singleton, hc])
          (by rw [List.length_append, List.length_singleton]; omega)
          (by rw [List.length_append, List.length_singleton]; omega)
        refine ⟨hrec.1, hrec.2.1, ?_⟩
        rw [hrec.2.2]
        have htake : (8 : Nat) - q.length = (7 - q.length) + 1 := by omega
        rw [htake, List.take_succ_cons]
        have hidx : (8 : Nat) - (q ++ [(⟨d.base, d.len⟩ : OvmfFwMem)]).length =
            7 - q.length := by
          rw [List.length_append, List.length_singleton]
          omega
        rw [hidx]
        simp [List.append_assoc]
    · have hmem' : (d.metadata_type == 1) = false := by
        simpa using hmem
      have hfilter : (d :: rest).filter (fun d => d.metadata_type == 1) =
          rest.filter (fun d => d.metadata_type == 1) := by
        simp [List.filter, hmem']
      rw [hfilter] at hover ⊢
      obtain ⟨hok, hpre, hcnt⟩ := @applyDesc_nonmem d fw hmem'
      have hstep : processDescs (d :: rest) fw =
          processDescs rest (applyDesc d fw).1 := by
        rw [processDescs]
        rcases ha : applyDesc d fw with ⟨fw', r⟩
        rw [ha] at hok
        simp at hok
        subst hok
        rfl
      rw [hstep]
      exact ih _ q (by rw [hpre]; exact hp) (by rw [hcnt]; exact hc) hle hover

/-! ## Claim C5: the bounded prevalidated-region list -/

/-- C5: for every SEV metadata table (header read at the indirected offset,
descriptor list `ds` read by the loop): with at most 8 memory (type-1)
descriptors, `parse_sev_metadata` succeeds and records all of them in table
order; with more than 8 it fails with the too-many-regions error at the
ninth, at which point the first 8 memory descriptors are recorded unchanged
in order and the count is 8. -/
theorem C5_too_many_regions (data : List Nat) (tdo off n : Nat)
    (ds : List MetadataDesc)
    (hh : sevMetaHeader data tdo = .ok (off, n))
    (hn : n = ds.length)
    (hds : ∀ j (hj : j < ds.length), descAt data off j = .ok (ds.get ⟨j, hj⟩)) :
    ((ds.filter (fun d => d.metadata_type == 1)).length ≤ 8 →
      (parse_sev_metadata data tdo ovmfFwInfoDefault).2 = .ok () ∧
      (parse_sev_metadata data tdo ovmfFwInfoDefault).1.prevalidated_count =
        (ds.filter (fun d => d.metadata_type == 1)).length ∧
      (parse_sev_metadata data tdo ovmfFwInfoDefault).1.prevalidated =
        (ds.filter (fun d => d.metadata_type == 1)).map
          (fun d => ⟨d.base, d.len⟩) ++
        List.replicate (8 - (ds.filter (fun d => d.metadata_type == 1)).length)
          ⟨0, 0⟩) ∧
    (8 < (ds.filter (fun d => d.metadata_type == 1)).length →
      (parse_sev_metadata data tdo ovmfFwInfoDefault).2 =
        .err "OVMF metadata defines too many memory regions" ∧
      (parse_sev_metadata data tdo ovmfFwInfoDefault).1.prevalidated_count = 8 ∧
      (parse_sev_metadata data tdo ovmfFwInfoDefault).1.prevalidated =
        ((ds.filter (fun d => d.metadata_type == 1)).take 8).map
          (fun d => ⟨d.base, d.len⟩)) := by
  have hred : parse_sev_metadata data tdo ovmfFwInfoDefault =
      processDescs ds ovmfFwInfoDefault := by
    unfold parse_sev_metadata
    rw [hh]
    subst hn
    exact metaLoop_eq_processDescs data off ds 0 ovmfFwInfoDefault
      (fun j hj => by simpa using hds j hj)
  rw [hred]
  constructor
  · intro hle
    have := processDescs_ok ds ovmfFwInfoDefault [] (by simp [ovmfFwInfoDefault])
      (by simp [ovmfFwInfoDefault]) (by simpa using hle)
    refine ⟨this.1, by simpa using this.2.1, by simpa using this.2.2⟩
  · intro hover
    have := processDescs_over ds ovmfFwInfoDefault [] (by simp [ovmfFwInfoDefault])
      (by simp [ovmfFwInfoDefault]) (by simp) (by simpa using hover)
    refine ⟨this.1, this.2.1, by simpa using this.2.2⟩

set_option maxRecDepth 40000 in
/-- Witness for C5: the concrete 9-memory-descriptor table `metaData9`:
the parse fails with the too-many-regions error, the count is 8 and the
first eight descriptors are recorded in order. -/
theorem C5_witness :
    (parse_sev_metadata metaData9 124 ovmfFwInfoDefault).2 =
      .err "OVMF metadata defines too many memory regions" ∧
    (parse_sev_metadata metaData9 124 ovmfFwInfoDefault).1.prevalidated_count = 8 ∧
    (parse_sev_metadata metaData9 124 ovmfFwInfoDefault).1.prevalidated =
      ((descs9.filter (fun d => d.metadata_type == 1)).take 8).map
        (fun d => ⟨d.base, d.len⟩) :=
  (C5_too_many_regions metaData9 124 0 9 descs9 (by decide) (by decide)
    (by decide)).2 (by decide)

/-! ## Supporting lemmas on page chunking and page directives -/

/-- Ceiling-division step: removing one full 4096 chunk. -/
theorem ceil4096_succ {n : Nat} (hn : 1 ≤ n) :
    (n + 4095) / 4096 = (n - 4096 + 4095) / 4096 + 1 := by
  by_cases hbig : 4096 ≤ n
  · have h : n + 4095 = (n - 4096 + 4095) + 4096 := by omega
    rw [h, Nat.add_div_right _ (by norm_num)]
  · have h0 : n - 4096 = 0 := by omega
    rw [h0]
    norm_num
    omega

/-- Rejoining the 4096-byte chunks restores the input. -/
theorem pageChunksF_flatten :
    ∀ (f : Nat) (l : List Nat), l.length ≤ f → (pageChunksF f l).flatten = l := by
  intro f
  induction f with
  | zero =>
    intro l hl
    have : l = [] := List.eq_nil_of_length_eq_zero (by omega)
    subst this
    rfl
  | succ f ih =>
    intro l hl
    by_cases hnil : l = []
    · subst hnil; rfl
    · rw [pageChunksF, if_neg hnil]
      have hlen : l.length ≠ 0 := by
        simpa using fun h => hnil (List.eq_nil_of_length_eq_zero h)
      rw [List.flatten_cons, ih (l.drop 4096) (by rw [List.length_drop]; omega)]
      exact List.take_append_drop 4096 l

/-- The number of 4096-byte chunks is `⌈length / 4096⌉`. -/
theorem pageChunksF_length :
    ∀ (f : Nat) (l : List Nat), l.length ≤ f →
      (pageChunksF f l).length = (l.length + 4095) / 4096 := by
  intro f
  induction f with
  | zero =>
    intro l hl
    have : l = [] := List.eq_nil_of_length_eq_zero (by omega)
    subst this
    rfl
  | succ f ih =>
    intro l hl
    by_cases hnil : l = []
    · subst hnil; rfl
    · rw [pageChunksF, if_neg hnil]
      have hlen : l.length ≠ 0 := by
        simpa using fun h => hnil (List.eq_nil_of_length_eq_zero h)
      rw [List.length_cons, ih (l.drop 4096) (by rw [List.length_drop]; omega),
        List.length_drop, ← ceil4096_succ (show 1 ≤ l.length by omega)]

/-- One firmware page directive per chunk. -/
theorem buildFwPageDirectives_length (m : Nat) :
    ∀ (cs : List (List Nat)) (g : Nat),
      (buildFwPageDirectives m g cs).length = cs.length := by
  intro cs
  induction cs with
  | nil => intro g; rfl
  | cons c cs ih =>
    intro g
    rw [buildFwPageDirectives, List.length_cons, List.length_cons, ih]

/-- The `i`-th firmware page directive carries the `i`-th chunk at guest
physical address `g + 4096 * i`. -/
theorem buildFwPageDirectives_getD (m : Nat) :
    ∀ (cs : List (List Nat)) (g i : Nat), i < cs.length →
      (buildFwPageDirectives m g cs).getD i (.other 0) =
        .pageData (g + 4096 * i) m .normal (cs.getD i []) := by
  intro cs
  induction cs with
  | nil => intro g i hi; simp at hi
  | cons c cs ih =>
    intro g i hi
    cases i with
    | zero => simp [buildFwPageDirectives]
    | succ i =>
      rw [buildFwPageDirectives, List.getD_cons_succ, List.getD_cons_succ,
        ih (g + 4096) i (by simpa using hi)]
      congr 1
      omega

/-- The payloads of the firmware page directives are exactly the chunks. -/
theorem buildFwPageDirectives_map_dirData (m : Nat) :
    ∀ (cs : List (List Nat)) (g : Nat),
      (buildFwPageDirectives m g cs).map dirData = cs := by
  intro cs
  induction cs with
  | nil => intro g; rfl
  | cons c cs ih =>
    intro g
    rw [buildFwPageDirectives, List.map_cons, ih]
    rfl

/-- A successful `buildPvRegion` yields one empty ordinary page per offset,
at `base + offset` (the `u32` additions did not overflow). -/
theorem buildPvRegion_ok {m b : Nat} :
    ∀ (offs : List Nat) (ds : List Directive),
      buildPvRegion m b offs = .ok ds →
      ds = offs.map (fun o => .pageData (b + o) m .normal []) := by
  intro offs
  induction offs with
  | nil =>
    intro ds h
    simp [buildPvRegion] at h
    simp [h.symm]
  | cons o rest ih =>
    intro ds h
    rw [buildPvRegion] at h
    cases ha : checkedAdd32 b o with
    | err e => rw [ha] at h; simp at h
    | crash e => rw [ha] at h; simp at h
    | ok g =>
      rw [ha, bindR_ok] at h
      have hg : g = b + o := by
        unfold checkedAdd32 at ha
        split at ha
        · injection ha with h'
          exact h'.symm
        · exact absurd ha (by simp)
      cases hr : buildPvRegion m b rest with
      | err e => rw [hr] at h; simp at h
      | crash e => rw [hr] at h; simp at h
      | ok ds' =>
        rw [hr, bindR_ok] at h
        injection h with h'
        rw [← h', List.map_cons, hg, ih ds' hr]

/-- A successful `buildPvPages` is the concatenation of the per-region page
lists. -/
theorem buildPvPages_ok {m : Nat} :
    ∀ (mems : List OvmfFwMem) (ds : List Directive),
      buildPvPages m mems = .ok ds →
      ds = (mems.map (fun r =>
        (pvOffsets r.size).map
          (fun o => Directive.pageData (r.base + o) m .normal []))).flatten := by
  intro mems
  induction mems with
  | nil =>
    intro ds h
    simp [buildPvPages] at h
    simp [h.symm]
  | cons r mems ih =>
    intro ds h
    rw [buildPvPages] at h
    cases h1 : buildPvRegion m r.base (pvOffsets r.size) with
    | err e => rw [h1] at h; simp at h
    | crash e => rw [h1] at h; simp at h
    | ok ds₁ =>
      rw [h1, bindR_ok] at h
      cases h2 : buildPvPages m mems with
      | err e => rw [h2] at h; simp at h
      | crash e => rw [h2] at h; simp at h
      | ok ds₂ =>
        rw [h2, bindR_ok] at h
        injection h with h'
        rw [← h', List.map_cons, List.flatten_cons, buildPvRegion_ok _ _ h1,
          ih ds₂ h2]

/-- The step-by-4096 offsets are `cur + 4096 * j` for
`j < ⌈(size - cur) / 4096⌉`. -/
theorem pvOffsetsF_eq :
    ∀ (f cur size : Nat), size - cur ≤ f →
      pvOffsetsF f cur size =
        (List.range ((size - cur + 4095) / 4096)).map (fun j => cur + 4096 * j) := by
  intro f
  induction f with
  | zero =>
    intro cur size h
    have hc : (size - cur + 4095) / 4096 = 0 := by omega
    rw [hc]
    rfl
  | succ f ih =>
    intro cur size h
    by_cases hlt : cur < size
    · rw [pvOffsetsF, if_pos hlt, ih (cur + 4096) size (by omega)]
      have hsub : size - (cur + 4096) = size - cur - 4096 := by omega
      have hc : (size - cur + 4095) / 4096 =
          (size - (cur + 4096) + 4095) / 4096 + 1 := by
        rw [hsub, ← ceil4096_succ (by omega)]
      apply List.ext_getElem
      · simp [hc]
      · intro i h1 h2
        cases i with
        | zero => simp
        | succ j =>
          simp only [List.getElem_cons_succ, List.getElem_map,
            List.getElem_range]
          omega
    · rw [pvOffsetsF, if_neg hlt]
      have hc : (size - cur + 4095) / 4096 = 0 := by omega
      rw [hc]
      rfl

/-- `parse_ovmf` can only succeed on an input of at least 32 bytes. -/
theorem parse_ovmf_ok_len {data : List Nat} {fw fw' : OvmfFwInfo} {u : Unit}
    (h : parse_ovmf data fw = (fw', .ok u)) : 32 ≤ data.length := by
  unfold parse_ovmf at h
  split at h
  · simp at h
  · omega

/-- Decomposition of a successful `OvmfFirmware::parse`: the length bounds,
the derived `start`/`size` fields, and the directive list as the firmware
content pages followed by the platform extras. -/
theorem ovmfFirmwareParse_ok {data : List Nat} {mask : Nat}
    {platform : Platform} {fwRes : OvmfFirmware}
    (h : ovmfFirmwareParse data mask platform = .ok fwRes) :
    32 ≤ data.length ∧ data.length ≤ 0xffffffff ∧
    fwRes.fw_info.start = 2 ^ 32 - data.length ∧
    fwRes.fw_info.size = data.length ∧
    ∃ extras,
      fwRes.directives =
        buildFwPageDirectives mask fwRes.fw_info.start (pageChunks data) ++
          extras ∧
      (platform = Platform.sevSnp →
        snpExtraDirectives mask fwRes.fw_info = .ok extras) ∧
      (platform ≠ Platform.sevSnp → extras = []) := by
  unfold ovmfFirmwareParse at h
  split at h
  · simp at h
  · rename_i hlen
    split at h
    · simp at h
    · simp at h
    · rename_i fw1 u heq
      have h32 : 32 ≤ data.length := parse_ovmf_ok_len heq
      have hle : data.length ≤ 0xffffffff := by omega
      have hpow : (2 : Nat) ^ 32 = 4294967296 := by norm_num
      dsimp only [] at h
      split at h
      · simp at h
      · simp at h
      · rename_i extras hex
        injection h with h'
        subst h'
        refine ⟨h32, hle, ?_, ?_, extras, rfl, ?_, ?_⟩
        · show (0xffffffff - data.length + 1) % 2 ^ 32 = 2 ^ 32 - data.length
          rw [hpow]
          omega
        · show data.length % 2 ^ 32 = data.length
          rw [hpow]
          omega
        · intro hs
          rw [if_pos hs] at hex
          exact hex
        · intro hns
          rw [if_neg hns] at hex
          injection hex with h''
          exact h''.symm

/-- The placeholder pages of one prevalidated region: one per 4096-byte
step, i.e. `⌈size / 4096⌉` pages at `base + 4096 * j`. -/
theorem regionPages_eq (m b size : Nat) :
    (pvOffsets size).map (fun o => Directive.pageData (b + o) m .normal []) =
      (List.range ((size + 4095) / 4096)).map
        (fun j => Directive.pageData (b + 4096 * j) m .normal []) := by
  rw [pvOffsets, pvOffsetsF_eq size 0 size (by omega), List.map_map]
  have h0 : size - 0 = size := rfl
  rw [h0]
  apply List.map_congr_left
  intro j _
  simp [Function.comp]

/-! ## Claim C1: firmware placement and content pages -/

/-- C1: for every firmware byte string that parses successfully, the length
is between 32 and `0xffffffff`, `start = 2^32 - L` and `size = L` (so
`start + size = 2^32` exactly), and the directive list begins with exactly
`⌈L / 4096⌉` ordinary `PageData` directives at consecutive 4096-spaced guest
physical addresses from `start` whose concatenated payloads are the input
bytes; every later directive is an empty placeholder page (so the content
pages are exactly those `⌈L / 4096⌉`). -/
theorem C1_firmware_placement (data : List Nat) (mask : Nat)
    (platform : Platform) (fwRes : OvmfFirmware)
    (h : ovmfFirmwareParse data mask platform = .ok fwRes) :
    32 ≤ data.length ∧ data.length ≤ 0xffffffff ∧
    fwRes.fw_info.start = 2 ^ 32 - data.length ∧
    fwRes.fw_info.size = data.length ∧
    fwRes.fw_info.start + fwRes.fw_info.size = 2 ^ 32 ∧
    (pageChunks data).length = (data.length + 4095) / 4096 ∧
    fwRes.directives.take ((data.length + 4095) / 4096) =
      buildFwPageDirectives mask fwRes.fw_info.start (pageChunks data) ∧
    (∀ i, i < (data.length + 4095) / 4096 →
      fwRes.directives.getD i (.other 0) =
        .pageData (fwRes.fw_info.start + 4096 * i) mask .normal
          ((pageChunks data).getD i [])) ∧
    ((fwRes.directives.take ((data.length + 4095) / 4096)).map dirData).flatten =
      data ∧
    (∀ d ∈ fwRes.directives.drop ((data.length + 4095) / 4096),
      ∃ g t, d = .pageData g mask t []) := by
  obtain ⟨h32, hle, hstart, hsize, extras, hdir, hyes, hno⟩ :=
    ovmfFirmwareParse_ok h
  have hpow : (2 : Nat) ^ 32 = 4294967296 := by norm_num
  have hchlen : (pageChunks data).length = (data.length + 4095) / 4096 :=
    pageChunksF_length _ _ (le_refl _)
  have hfwlen :
      (buildFwPageDirectives mask fwRes.fw_info.start (pageChunks data)).length =
        (data.length + 4095) / 4096 := by
    rw [buildFwPageDirectives_length, hchlen]
  have htake : fwRes.directives.take ((data.length + 4095) / 4096) =
      buildFwPageDirectives mask fwRes.fw_info.start (pageChunks data) := by
    rw [hdir, ← hfwlen, List.take_left]
  have hdrop : fwRes.directives.drop ((data.length + 4095) / 4096) = extras := by
    rw [hdir, ← hfwlen, List.drop_left]
  refine ⟨h32, hle, hstart, hsize, ?_, hchlen, htake, ?_, ?_, ?_⟩
  · rw [hstart, hsize, hpow]
    omega
  · intro i hi
    have hgd : fwRes.directives.getD i (.other 0) =
        (buildFwPageDirectives mask fwRes.fw_info.start (pageChunks data)).getD i
          (.other 0) := by
      rw [hdir, List.getD_eq_getElem?_getD, List.getD_eq_getElem?_getD,
        List.getElem?_append_left (by rw [hfwlen]; exact hi)]
    rw [hgd, buildFwPageDirectives_getD mask (pageChunks data)
      fwRes.fw_info.start i (by rw [hchlen]; exact hi)]
  · rw [htake, buildFwPageDirectives_map_dirData]
    exact pageChunksF_flatten _ _ (le_refl _)
  · rw [hdrop]
    intro d hd
    by_cases hp : platform = Platform.sevSnp
    · have hex := hyes hp
      unfold snpExtraDirectives at hex
      cases hpv : buildPvPages mask
          (fwRes.fw_info.prevalidated.take fwRes.fw_info.prevalidated_count) with
      | err e => rw [hpv] at hex; simp at hex
      | crash e => rw [hpv] at hex; simp at hex
      | ok pv =>
        rw [hpv, bindR_ok] at hex
        injection hex with hex'
        rw [← hex'] at hd
        rcases List.mem_append.mp hd with h3 | hpvmem
        · simp only [List.mem_cons, List.not_mem_nil, or_false] at h3
          rcases h3 with rfl | rfl | rfl
          · exact ⟨fwRes.fw_info.secrets_page, .secrets, rfl⟩
          · exact ⟨fwRes.fw_info.caa_page, .normal, rfl⟩
          · exact ⟨fwRes.fw_info.cpuid_page, .cpuidData, rfl⟩
        · rw [buildPvPages_ok _ _ hpv] at hpvmem
          rw [List.mem_flatten] at hpvmem
          obtain ⟨l, hl, hdl⟩ := hpvmem
          rw [List.mem_map] at hl
          obtain ⟨r, _, rfl⟩ := hl
          rw [List.mem_map] at hdl
          obtain ⟨o, _, rfl⟩ := hdl
          exact ⟨r.base + o, .normal, rfl⟩
    · rw [hno hp] at hd
      simp at hd

/-- Witness for C1: the 50-byte firmware under the Native platform yields
one content page at `2^32 - 50` carrying the whole input. -/
theorem C1_witness :
    fwResult50Native.fw_info.start = 2 ^ 32 - 50 ∧
    fwResult50Native.fw_info.size = 50 ∧
    fwResult50Native.fw_info.start + fwResult50Native.fw_info.size = 2 ^ 32 ∧
    fwResult50Native.directives.take ((fwData50.length + 4095) / 4096) =
      buildFwPageDirectives 1 fwResult50Native.fw_info.start
        (pageChunks fwData50) ∧
    ((fwResult50Native.directives.take
        ((fwData50.length + 4095) / 4096)).map dirData).flatten = fwData50 := by
  have h := C1_firmware_placement fwData50 1 Platform.native fwResult50Native
    (by decide)
  exact ⟨h.2.2.1, h.2.2.2.1, h.2.2.2.2.1, h.2.2.2.2.2.2.1,
    h.2.2.2.2.2.2.2.2.1⟩

/-! ## Claim C6: SNP placeholder directives -/

/-- C6: for every successfully parsed firmware, the directive list is the
firmware content pages followed, exactly when the platform is SevSnp, by:
one empty secrets-type page at the secrets address, one empty ordinary page
at the calling-area address, one empty CPUID-type page at the CPUID address,
then, for each prevalidated region in list order, `⌈size / 4096⌉` empty
ordinary pages at `base, base + 4096, ...`; for every other platform nothing
follows the content pages. -/
theorem C6_snp_placeholder_directives (data : List Nat) (mask : Nat)
    (platform : Platform) (fwRes : OvmfFirmware)
    (h : ovmfFirmwareParse data mask platform = .ok fwRes) :
    fwRes.directives =
      buildFwPageDirectives mask fwRes.fw_info.start (pageChunks data) ++
        (if platform = Platform.sevSnp then
          [Directive.pageData fwRes.fw_info.secrets_page mask .secrets [],
           Directive.pageData fwRes.fw_info.caa_page mask .normal [],
           Directive.pageData fwRes.fw_info.cpuid_page mask .cpuidData []] ++
          ((fwRes.fw_info.prevalidated.take
              fwRes.fw_info.prevalidated_count).map
            (fun r => (List.range ((r.size + 4095) / 4096)).map
              (fun j => Directive.pageData (r.base + 4096 * j) mask
                .normal []))).flatten
        else []) := by
  obtain ⟨_, _, _, _, extras, hdir, hyes, hno⟩ := ovmfFirmwareParse_ok h
  rw [hdir]
  by_cases hp : platform = Platform.sevSnp
  · rw [if_pos hp]
    have hex := hyes hp
    unfold snpExtraDirectives at hex
    cases hpv : buildPvPages mask
        (fwRes.fw_info.prevalidated.take fwRes.fw_info.prevalidated_count) with
    | err e => rw [hpv] at hex; simp at hex
    | crash e => rw [hpv] at hex; simp at hex
    | ok pv =>
      rw [hpv, bindR_ok] at hex
      injection hex with hex'
      have hmaps :
          (fwRes.fw_info.prevalidated.take
              fwRes.fw_info.prevalidated_count).map
            (fun r => (pvOffsets r.size).map
              (fun o => Directive.pageData (r.base + o) mask .normal [])) =
          (fwRes.fw_info.prevalidated.take
              fwRes.fw_info.prevalidated_count).map
            (fun r => (List.range ((r.size + 4095) / 4096)).map
              (fun j => Directive.pageData (r.base + 4096 * j) mask
                .normal [])) :=
        List.map_congr_left (fun r _ => regionPages_eq mask r.base r.size)
      rw [← hex', buildPvPages_ok _ _ hpv, hmaps]
  · rw [if_neg hp, hno hp]

/-- Witness for C6: the 50-byte firmware under SevSnp carries the three
placeholder pages (no prevalidated regions) after its single content page. -/
theorem C6_witness :
    fwResult50Snp.directives =
      buildFwPageDirectives 1 fwResult50Snp.fw_info.start (pageChunks fwData50) ++
        (if Platform.sevSnp = Platform.sevSnp then
          [Directive.pageData fwResult50Snp.fw_info.secrets_page 1 .secrets [],
           Directive.pageData fwResult50Snp.fw_info.caa_page 1 .normal [],
           Directive.pageData fwResult50Snp.fw_info.cpuid_page 1 .cpuidData []] ++
          ((fwResult50Snp.fw_info.prevalidated.take
              fwResult50Snp.fw_info.prevalidated_count).map
            (fun r => (List.range ((r.size + 4095) / 4096)).map
              (fun j => Directive.pageData (r.base + 4096 * j) 1
                .normal []))).flatten
        else []) :=
  C6_snp_placeholder_directives fwData50 1 Platform.sevSnp fwResult50Snp
    (by decide)

/-! ## Claim C7: processor-context directives -/

/-- C7 counterexample: requesting `N = 0` processors on a context-requiring
platform still emits the boot processor context, so the number of
processor-context directives is 1, not `N = 0`: the loop
`for vp in 1..cpucount` is empty but the BSP push is unconditional. -/
theorem C7_counterexample :
    ((build_directives [] 0 Platform.sevEs 0).filter isSnpVpContext).length = 1 ∧
    ((build_directives [] 0 Platform.sevEs 0).filter isSnpVpContext).length ≠ 0 := by
  decide

/-- C7 amended: for every requested processor count `N ≥ 1` and every
platform requiring per-processor state (SevEs or SevSnp), given firmware
directives containing no processor contexts, the build emits exactly `N`
processor-context directives; the one at position `i` has index `i` (in
particular the first is the boot processor with index 0) and all share the
fixed guest physical address `0xFFFFFFFFF000`. -/
theorem C7_processor_contexts (fwDirs : List Directive) (reset_addr : Nat)
    (platform : Platform) (cpucount : Nat)
    (hplat : platform = Platform.sevEs ∨ platform = Platform.sevSnp)
    (hN : 1 ≤ cpucount)
    (hfw : ∀ d ∈ fwDirs, isSnpVpContext d = false) :
    ((build_directives fwDirs reset_addr platform cpucount).filter
        isSnpVpContext).length = cpucount ∧
    ((build_directives fwDirs reset_addr platform cpucount).filter
        isSnpVpContext).getD 0 (.other 0) =
      construct_bsp_vmsa 0xFFFFFFFFF000 COMPATIBILITY_MASK ∧
    (∀ i, i < cpucount →
      isSnpVpContext
        (((build_directives fwDirs reset_addr platform cpucount).filter
            isSnpVpContext).getD i (.other 0)) = true ∧
      dirVpIndex
        (((build_directives fwDirs reset_addr platform cpucount).filter
            isSnpVpContext).getD i (.other 0)) = i ∧
      dirGpa
        (((build_directives fwDirs reset_addr platform cpucount).filter
            isSnpVpContext).getD i (.other 0)) = 0xFFFFFFFFF000) := by
  have hrest : build_directives fwDirs reset_addr platform cpucount =
      fwDirs ++
        (construct_bsp_vmsa 0xFFFFFFFFF000 COMPATIBILITY_MASK ::
          (List.range' 1 (cpucount - 1)).map
            (fun vp =>
              construct_ap_vmsa 0xFFFFFFFFF000 COMPATIBILITY_MASK reset_addr vp)) := by
    rcases hplat with h | h <;> subst h <;> rfl
  have hfwnil : fwDirs.filter isSnpVpContext = [] := by
    rw [List.filter_eq_nil_iff]
    intro d hd
    simp [hfw d hd]
  have hctxs : (build_directives fwDirs reset_addr platform cpucount).filter
      isSnpVpContext =
      construct_bsp_vmsa 0xFFFFFFFFF000 COMPATIBILITY_MASK ::
        (List.range' 1 (cpucount - 1)).map
          (fun vp =>
            construct_ap_vmsa 0xFFFFFFFFF000 COMPATIBILITY_MASK reset_addr vp) := by
    rw [hrest, List.filter_append, hfwnil, List.nil_append]
    rw [List.filter_eq_self]
    intro d hd
    rcases List.mem_cons.mp hd with h | h
    · subst h; rfl
    · obtain ⟨vp, _, rfl⟩ := List.mem_map.mp h
      rfl
  rw [hctxs]
  refine ⟨by simp; omega, rfl, ?_⟩
  intro i hi
  rcases Nat.eq_zero_or_pos i with rfl | hpos
  · exact ⟨rfl, rfl, rfl⟩
  · obtain ⟨j, rfl⟩ := Nat.exists_eq_add_of_lt hpos
    rw [Nat.zero_add] at *
    have hj : j < ((List.range' 1 (cpucount - 1)).map
        (fun vp =>
          construct_ap_vmsa 0xFFFFFFFFF000 COMPATIBILITY_MASK reset_addr vp)).length := by
      simp; omega
    rw [List.getD_cons_succ, List.getD_eq_getElem _ _ hj]
    rw [List.getElem_map]
    rw [List.getElem_range']
    exact ⟨rfl, by show (1 + 1 * j : Nat) = j + 1; omega, rfl⟩

/-- Witness for C7 at three requested processors on SevEs. -/
theorem C7_witness :
    ((build_directives [] 0x1234 Platform.sevEs 3).filter
        isSnpVpContext).length = 3 :=
  (C7_processor_contexts [] 0x1234 Platform.sevEs 3 (Or.inl rfl)
    (by decide) (by intro d hd; simp at hd)).1

end BuildIgvm
